import Mathlib

/-!
Shallow embedding of the core of the horizontal dc.js charting code
(`src/horizontal-stack-mixin.js`, `src/horizontal-coordinate-grid-mixin.js`,
`src/bar-chart-horizontal.js`) together with theorems settling the claims
about it.

Modelling conventions:
* JavaScript numbers are modelled as exact rationals (`ℚ`).  Where the code's
  own guards are about non-finite arithmetic (`calculateBarHeight` in
  `bar-chart-horizontal.js` checks `Infinity` and `NaN` explicitly), numbers
  are modelled as `JSNum`, a rational extended with `+Infinity`, `-Infinity`
  and `NaN` following IEEE/JS evaluation rules for the operations the code
  performs (negative zero is not modelled; the embedded code never produces
  a relevant `-0`).
* Mutable chart state becomes explicit state passing: each embedded function
  takes the state it reads and returns the state it writes.
* JS `undefined`/`null`-able values become `Option`; JS truthiness tests on
  them become `Option` matches.
* Accessors (`keyAccessor`, `valueAccessor`, layer `accessor`, `round`) are
  higher-order arguments, as in the source.  The source passes the element
  index as a second argument to accessors; the index argument is dropped
  here (none of the embedded call sites depend on it).
* `dc.events.trigger` is a last-write-wins debounce (events.js is not part
  of the sources; the spec describes it as coalescing triggers into firing
  the most recent one).  The embedding applies the triggered callback
  directly, so every state shown is the settled post-debounce state.
-/

namespace DC

/-! ## JS numbers with Infinity and NaN

Only the operations used by `calculateBarHeight` (bar-chart-horizontal.js,
lines 186-203) and the d3 `rangeBands` band computation are provided. -/

/-- A JavaScript number: a finite rational, `Infinity`, `-Infinity` or `NaN`.
(`-0` is not modelled.) -/
inductive JSNum where
  | num (q : ℚ)
  | posInf
  | negInf
  | nan
deriving DecidableEq, Repr

namespace JSNum

/-- JS `isNaN`. -/
def isNaN : JSNum → Bool
  | nan => true
  | _ => false

/-- JS multiplication on `JSNum` (IEEE rules; `Infinity * 0 = NaN`). -/
def mul : JSNum → JSNum → JSNum
  | num a, num b => num (a * b)
  | nan, _ => nan
  | _, nan => nan
  | posInf, posInf => posInf
  | posInf, negInf => negInf
  | negInf, posInf => negInf
  | negInf, negInf => posInf
  | posInf, num b => if b = 0 then nan else if 0 < b then posInf else negInf
  | num a, posInf => if a = 0 then nan else if 0 < a then posInf else negInf
  | negInf, num b => if b = 0 then nan else if 0 < b then negInf else posInf
  | num a, negInf => if a = 0 then nan else if 0 < a then negInf else posInf

/-- JS division on `JSNum` (IEEE rules; `x / 0` is `±Infinity` by the sign of
`x`, `0 / 0 = NaN`; division of a finite number by an infinity is `0`).
Since `-0` is not modelled, `x / 0` behaves as JS `x / +0`. -/
def div : JSNum → JSNum → JSNum
  | num a, num b =>
      if b = 0 then (if a = 0 then nan else if 0 < a then posInf else negInf)
      else num (a / b)
  | nan, _ => nan
  | _, nan => nan
  | posInf, posInf => nan
  | posInf, negInf => nan
  | negInf, posInf => nan
  | negInf, negInf => nan
  | posInf, num b => if 0 ≤ b then posInf else negInf
  | negInf, num b => if 0 ≤ b then negInf else posInf
  | num _, posInf => num 0
  | num _, negInf => num 0

/-- JS `Math.floor` (`Math.floor` of `±Infinity`/`NaN` returns its input). -/
def floor : JSNum → JSNum
  | num q => num (Int.floor q : ℤ)
  | posInf => posInf
  | negInf => negInf
  | nan => nan

/-- JS `<` comparison: any comparison involving `NaN` is false. -/
def lt : JSNum → JSNum → Bool
  | nan, _ => false
  | _, nan => false
  | num a, num b => decide (a < b)
  | negInf, negInf => false
  | negInf, _ => true
  | _, negInf => false
  | posInf, _ => false
  | _, posInf => true

end JSNum

/-! ## Bar height computation (bar-chart-horizontal.js)

`calculateBarHeight` (lines 186-203): picks one of three formulas, then
clamps `Infinity`, `NaN` and anything below `MIN_BAR_HEIGHT = 1` to the
floor of `1`. -/

/-- The `MIN_BAR_HEIGHT` constant of bar-chart-horizontal.js. -/
def MIN_BAR_HEIGHT : ℚ := 1

/-- The final clamp of `calculateBarHeight`:
`if (_barHeight === Infinity || isNaN(_barHeight) || _barHeight < MIN_BAR_HEIGHT)
 { _barHeight = MIN_BAR_HEIGHT; }`. -/
def clampBarHeight (h : JSNum) : JSNum :=
  if h = JSNum.posInf ∨ h.isNaN = true ∨ JSNum.lt h (JSNum.num MIN_BAR_HEIGHT) = true then
    JSNum.num MIN_BAR_HEIGHT
  else h

/-- The branch selection of `calculateBarHeight` before the clamp:
* ordinal axis and `_gap === undefined` (after `barPadding` was set):
  `Math.floor(_chart.y().rangeBand())`;
* `_gap` truthy (defined and nonzero):
  `Math.floor((yAxisHeight - (numberOfBars - 1) * _gap) / numberOfBars)`;
* otherwise: `Math.floor(yAxisHeight / (1 + barPadding) / numberOfBars)`.
`rangeBand` is the value of the d3 y scale's `rangeBand()`;
`numberOfBars` is `_chart.yUnitCount()`. -/
def calculateBarHeightRaw (isOrdinal : Bool) (gap : Option ℚ) (rangeBand : JSNum)
    (yAxisHeight barPadding numberOfBars : ℚ) : JSNum :=
  if isOrdinal = true ∧ gap = none then JSNum.floor rangeBand
  else
    match gap with
    | some g =>
        if g = 0 then
          JSNum.floor (JSNum.div (JSNum.div (JSNum.num yAxisHeight) (JSNum.num (1 + barPadding)))
            (JSNum.num numberOfBars))
        else
          JSNum.floor (JSNum.div (JSNum.num (yAxisHeight - (numberOfBars - 1) * g))
            (JSNum.num numberOfBars))
    | none =>
        JSNum.floor (JSNum.div (JSNum.div (JSNum.num yAxisHeight) (JSNum.num (1 + barPadding)))
          (JSNum.num numberOfBars))

/-- `calculateBarHeight`: branch selection followed by the clamp. -/
def calculateBarHeight (isOrdinal : Bool) (gap : Option ℚ) (rangeBand : JSNum)
    (yAxisHeight barPadding numberOfBars : ℚ) : JSNum :=
  clampBarHeight (calculateBarHeightRaw isOrdinal gap rangeBand yAxisHeight barPadding numberOfBars)

/-- The band width a d3 v3 ordinal scale holds after
`prepareYAxis` calls `_y.rangeBands([0, yAxisHeight], _rangeBandPadding, outer)`
(horizontal-coordinate-grid-mixin.js line 490): d3 v3 computes
`step = extent / (domainSize - padding + 2 * outerPadding)` and
`rangeBand = step * (1 - padding)`.  (d3 is the repository's external scale
library; this is the only fact about ordinal scales the bar chart consumes.) -/
def d3RangeBand (yAxisHeight : ℚ) (domainSize : ℕ) (padding outerPadding : ℚ) : JSNum :=
  JSNum.mul
    (JSNum.div (JSNum.num yAxisHeight) (JSNum.num ((domainSize : ℚ) - padding + 2 * outerPadding)))
    (JSNum.num (1 - padding))

/-- Bar height as computed in a render pass: for an ordinal chart the y scale's
band was just set by `prepareYAxis` from `[0, yAxisHeight]` and the ordinal
domain, so `rangeBand` is `d3RangeBand`.  For an ordinal axis
(`dc.units.ordinal`) the unit count equals the ordinal domain's size. -/
def barHeightRender (isOrdinal : Bool) (gap : Option ℚ)
    (yAxisHeight barPadding numberOfBars : ℚ) (domainSize : ℕ)
    (rangeBandPadding outerPadding : ℚ) : JSNum :=
  calculateBarHeight isOrdinal gap (d3RangeBand yAxisHeight domainSize rangeBandPadding outerPadding)
    yAxisHeight barPadding numberOfBars

/-! ## Stack mixin (horizontal-stack-mixin.js)

The chart's `data` function (lines 295-302) drops hidden layers, runs the
configured stack layout over the remaining layers and flips x/y.  The stack
layout is d3 v3's `d3.layout.stack()` with `values(prepareValues)` and
otherwise default accessors, order and offset: for layers whose value lists
all have length `m` it assigns, positionally, `y0[i][j] = Σ_{l<i} y[l][j]`
(offset `zero` starts every column at `0`; the default order is the input
order).  d3's loop runs `j` over the first layer's indices and reads
`points[i][j]` of every layer, so layers of unequal lengths make it read
off the end of an array; `chartData` returns `none` in that case. -/

/-- One record of a crossfilter group's `all()` snapshot. -/
structure RawRecord where
  key : ℚ
  value : ℚ
deriving DecidableEq, Repr

/-- A registered layer (`_chart.stack`, lines 80-99): `{group: group}` plus
`name` if a string was supplied and `accessor` if a function was supplied.
`hidden` is set by `hideStack`/`showStack`; JS leaves it `undefined` until
then, and every consumer of `hidden` in the sources tests truthiness (or
normalizes with `|| false`), so it is modelled as a `Bool` initialized to
`false`. -/
structure Layer where
  group : List RawRecord
  name : Option String
  accessor : Option (RawRecord → ℚ)
  hidden : Bool

/-- A raw data point built by `prepareValues` (lines 14-23), before the
x/y flip: `x` is the key, `y` the value (`null` when the layer is hidden). -/
structure Pt where
  x : ℚ
  y : Option ℚ
  data : RawRecord
  layer : String
  hidden : Bool
deriving DecidableEq, Repr

/-- The axis state `domainFilter` (lines 37-56) reads from the chart:
the y scale's domain (`none` when no y scale is set), `isOrdinal()` and
`elasticX()`.  `elasticY` is carried along because claim C5 speaks about the
category (y) axis's elasticity; `domainFilter` itself never reads it. -/
structure AxisCfg where
  yDomain : Option (List ℚ)
  isOrdinal : Bool
  elasticX : Bool
  elasticY : Bool
deriving DecidableEq, Repr

/-- `domainFilter` (lines 37-56): keep everything when there is no y scale,
when the axis is ordinal, or when `elasticX()` is on; otherwise keep `p` iff
`yDomain[0] <= p.x <= yDomain[yDomain.length - 1]` (an empty domain makes
both JS comparisons against `undefined` false). -/
def domainFilter (cfg : AxisCfg) : Pt → Bool := fun p =>
  match cfg.yDomain with
  | none => true
  | some yDom =>
      if cfg.isOrdinal then true
      else if cfg.elasticX then true
      else
        match yDom.head?, yDom.getLast? with
        | some lo, some hi => decide (lo ≤ p.x) && decide (p.x ≤ hi)
        | _, _ => false

/-- The name assignment `layer.name = String(layer.name || layerIdx)` of
`prepareValues` (line 13): an unset name, or the falsy empty string, falls
back to the stringified index `layerIdx` that the stack layout passed in. -/
def assignName (name : Option String) (layerIdx : ℕ) : String :=
  match name with
  | some s => if s = "" then toString layerIdx else s
  | none => toString layerIdx

/-- A layer after `prepareValues` ran on it: name assigned, values built. -/
structure PreparedLayer where
  group : List RawRecord
  name : String
  accessor : Option (RawRecord → ℚ)
  hidden : Bool
  values : List Pt

/-- `prepareValues` (lines 11-27): resolve the value accessor
(`layer.accessor || _chart.valueAccessor()`), assign the name, map the
group's records to raw points and filter them with `domainFilter`. -/
def prepareValues (cfg : AxisCfg) (defaultAccessor keyAccessor : RawRecord → ℚ)
    (layer : Layer) (layerIdx : ℕ) : PreparedLayer :=
  let valAccessor := layer.accessor.getD defaultAccessor
  let name := assignName layer.name layerIdx
  let vals := layer.group.map fun d =>
    { x := keyAccessor d
      y := if layer.hidden then none else some (valAccessor d)
      data := d
      layer := name
      hidden := layer.hidden : Pt }
  { group := layer.group, name := name, accessor := layer.accessor,
    hidden := layer.hidden, values := vals.filter (domainFilter cfg) }

/-- The stack layout calls `prepareValues(layer, i)` for each layer of the
list it is given, `i` being the index *within that list* (d3's
`data.map(function(d, i) { return values.call(stack, d, i); })`). -/
def prepareLayers (cfg : AxisCfg) (defaultAccessor keyAccessor : RawRecord → ℚ) :
    ℕ → List Layer → List PreparedLayer
  | _, [] => []
  | i, l :: ls =>
      prepareValues cfg defaultAccessor keyAccessor l i ::
        prepareLayers cfg defaultAccessor keyAccessor (i + 1) ls

/-- One column-wise step of d3's baseline accumulation: the offsets after a
layer are the offsets before it plus that layer's values (JS `o +=
points[i-1][j][1]`; a `null` value coerces to `0` in JS arithmetic). -/
def nextOffsets (offsets : List ℚ) (vals : List Pt) : List ℚ :=
  List.zipWith (fun o p => o + p.y.getD 0) offsets vals

/-- d3 v3 `d3.layout.stack` with default order/offset/out, transposed to a
per-layer recursion: each layer's point `j` is paired with the accumulated
offset `y0` for column `j`, and the offsets grow by the layer's own values. -/
def stackLayers : List ℚ → List PreparedLayer → List (PreparedLayer × List (Pt × ℚ))
  | _, [] => []
  | offsets, pl :: rest =>
      (pl, List.zipWith (fun p o => (p, o)) pl.values offsets) ::
        stackLayers (nextOffsets offsets pl.values) rest

/-- A stacked-and-flipped output point (`flipXY`, lines 275-293): `x` is the
value, `y` the key, `x0` the baseline. -/
structure OutPt where
  data : RawRecord
  hidden : Bool
  layer : String
  x : ℚ
  y : ℚ
  x0 : ℚ
deriving DecidableEq, Repr

/-- A stacked-and-flipped output layer (`flipXY` rebuilds the layer object
from `group`, `name`, `accessor` and the flipped `values`). -/
structure OutLayer where
  group : List RawRecord
  name : String
  accessor : Option (RawRecord → ℚ)
  values : List OutPt

/-- Flip one point (lines 281-289): `x: value.y, y: value.x, x0: value.y0`.
Only visible layers reach this point, so `value.y` is a number; `getD 0`
unwraps it. -/
def flipPt (p : Pt) (y0 : ℚ) : OutPt :=
  { data := p.data, hidden := p.hidden, layer := p.layer,
    x := p.y.getD 0, y := p.x, x0 := y0 }

/-- Flip one stacked layer (`flipXY` rebuilds each layer object from
`group`, `name`, `accessor` and the flipped values). -/
def flipLayer (pr : PreparedLayer × List (Pt × ℚ)) : OutLayer :=
  { group := pr.1.group, name := pr.1.name, accessor := pr.1.accessor,
    values := pr.2.map fun q => flipPt q.1 q.2 }

/-- `flipXY` (lines 275-293) over the stack layout's output. -/
def flipXY (stacked : List (PreparedLayer × List (Pt × ℚ))) : List OutLayer :=
  stacked.map flipLayer

/-- `_chart.data` (lines 295-302): drop hidden layers (`visability`), return
`[]` for an empty visible set, otherwise stack and flip.  Returns `none`
when the visible layers' prepared value lists do not all share the first
layer's length (d3's positional loop reads `points[i][j]` for every `j`
below the first layer's length, so ragged layers make it read `undefined`
and crash or emit baseline-less points). -/
def chartData (cfg : AxisCfg) (defaultAccessor keyAccessor : RawRecord → ℚ)
    (stack : List Layer) : Option (List OutLayer) :=
  let layers := stack.filter fun l => !l.hidden
  match prepareLayers cfg defaultAccessor keyAccessor 0 layers with
  | [] => some []
  | p0 :: ps =>
      if (p0 :: ps).all (fun pl => pl.values.length = p0.values.length) then
        some (flipXY (stackLayers (List.replicate p0.values.length 0) (p0 :: ps)))
      else none

/-- `findLayerByName` (lines 132-135): index of the first layer whose `name`
equals `n` (an unnamed layer's `undefined` never equals a string). -/
def findLayerByName (n : String) : List Layer → Option Layer
  | [] => none
  | l :: ls => if l.name = some n then some l else findLayerByName n ls

/-- Common body of `hideStack`/`showStack`: find the first layer named `n`
and set its `hidden` flag; do nothing when no layer matches. -/
def setHiddenByName (n : String) (b : Bool) : List Layer → List Layer
  | [] => []
  | l :: ls =>
      if l.name = some n then { l with hidden := b } :: ls
      else l :: setHiddenByName n b ls

/-- `_chart.hideStack` (lines 146-152); the chart object it returns is the
registry state here. -/
def hideStack (n : String) (s : List Layer) : List Layer := setHiddenByName n true s

/-- `_chart.showStack` (lines 163-169). -/
def showStack (n : String) (s : List Layer) : List Layer := setHiddenByName n false s

/-- The side effect of a `_chart.data()` pass on the registry itself:
`prepareValues` assigns `layer.name = String(layer.name || layerIdx)` to
each *visible* layer, `layerIdx` counting visible layers only; hidden
layers are untouched. -/
def registryAfterDataAux : ℕ → List Layer → List Layer
  | _, [] => []
  | vidx, l :: ls =>
      if l.hidden then l :: registryAfterDataAux vidx ls
      else { l with name := some (assignName l.name vidx) } :: registryAfterDataAux (vidx + 1) ls

/-- Registry after a `_chart.data()` pass: when every layer is hidden the
visible list is empty, `data` returns `[]` early and no names are assigned. -/
def registryAfterData (s : List Layer) : List Layer :=
  if (s.filter fun l => !l.hidden).isEmpty then s else registryAfterDataAux 0 s

/-- Number of visible layers registered before index `i` — the index
`prepareValues` sees for the layer at registry position `i`. -/
def visibleCountBefore (s : List Layer) (i : ℕ) : ℕ :=
  ((s.take i).filter fun l => !l.hidden).length

/-- Value of a stacked output layer at a key: the `x` (value) of the first
point whose `y` (key) equals `k`, `0` when the key is missing.  This is the
reading of "value of layer L at key k" in the stacking claims. -/
def valueAtKey (vals : List OutPt) (k : ℚ) : ℚ :=
  match vals.find? fun p => decide (p.y = k) with
  | some p => p.x
  | none => 0

/-! ## Coordinate grid mixin (horizontal-coordinate-grid-mixin.js)

Zoom/focus/brush state.  A chart's observable state for these claims is its
current secondary-axis (y) domain, the original domain captured when the y
scale was assigned (`_chart.y`, lines 279-287), its active filter and its
`zoomOutRestrict` flag (default `true`, line 90).  Domains and filters are
`[lo, hi]` pairs (`dc.filters.RangedFilter(lo, hi)` is the pair itself for
these purposes; `replaceFilter`/`filter(null)` from the base mixin — not in
the sources — are modelled from the spec as set/clear of the active
filter). -/

/-- The per-chart grid state the zoom/focus/brush claims read and write. -/
structure GridChart where
  yDomain : ℚ × ℚ
  yOriginalDomain : ℚ × ℚ
  filter : Option (ℚ × ℚ)
  zoomOutRestrict : Bool
deriving DecidableEq, Repr

/-- `constrainRange` (lines 1217-1222):
`[d3.max([range[0], constraint[0]]), d3.min([range[1], constraint[1]])]`. -/
def constrainRange (range constraint : ℚ × ℚ) : ℚ × ℚ :=
  (max range.1 constraint.1, min range.2 constraint.2)

/-- `zoomHandler` (lines 26-56), restricted to the state it mutates on the
chart itself: when `zoomOutRestrict` is set, constrain the current domain to
the original domain and then — if a range chart is linked — to the range
chart's current y domain; finally replace the chart's filter with a ranged
filter over the resulting domain.  (`_rangeChart`'s own filter update and
the redraw triggers do not touch this chart's domain or filter.) -/
def zoomHandler (c : GridChart) (rangeChartDomain : Option (ℚ × ℚ)) : GridChart :=
  let d :=
    if c.zoomOutRestrict then
      let d1 := constrainRange c.yDomain c.yOriginalDomain
      match rangeChartDomain with
      | some rd => constrainRange d1 rd
      | none => d1
    else c.yDomain
  { c with yDomain := d, filter := some d }

/-- `hasRangeSelected` (lines 1312-1314): the range is an array of length
more than 1; a present pair models that, `null`/`undefined` model the rest. -/
def hasRangeSelected (range : Option (ℚ × ℚ)) : Bool := range.isSome

/-- `_chart.focus` (lines 1242-1251): set the y domain to the given range
(or back to the original domain when no range is selected), then run
`zoomHandler`. -/
def focus (c : GridChart) (rangeChartDomain : Option (ℚ × ℚ))
    (range : Option (ℚ × ℚ)) : GridChart :=
  let c1 :=
    if hasRangeSelected range then { c with yDomain := range.getD c.yDomain }
    else { c with yDomain := c.yOriginalDomain }
  zoomHandler c1 rangeChartDomain

/-- `rangesEqual` (lines 1276-1288) on ranged filters: both absent, or both
present with equal endpoints (`valueOf` of a number is itself). -/
def rangesEqual : Option (ℚ × ℚ) → Option (ℚ × ℚ) → Bool
  | none, none => true
  | none, some _ => false
  | some _, none => false
  | some r1, some r2 => decide (r1.1 = r2.1) && decide (r1.2 = r2.2)

/-- The `filtered` listener `focusChart` installs on the range chart
(lines 1262-1272): when the range chart's filter is cleared, reset the focus
chart's y domain to its original domain; when it differs from the focus
chart's filter, call `focus` on the focus chart with it.  Inside that
`focus`, `zoomHandler` sees the focus chart's `_rangeChart` — the range
chart — so its current y domain is the constraint.  Returns the focus
chart's new state. -/
def focusChartOnFiltered (rangeC focusC : GridChart) : GridChart :=
  match rangeC.filter with
  | none => { focusC with yDomain := focusC.yOriginalDomain }
  | some f =>
      if rangesEqual (some f) focusC.filter then focusC
      else focus focusC (some rangeC.yDomain) (some f)

/-! ### Brush handling -/

/-- `extendBrush` (lines 1035-1045): when a rounding function is configured,
round both ends of the brush extent. -/
def extendBrush (round : Option (ℚ → ℚ)) (extent : ℚ × ℚ) : ℚ × ℚ :=
  match round with
  | some r => (r extent.1, r extent.2)
  | none => extent

/-- `brushIsEmpty` (lines 1047-1049):
`_brush.empty() || !extent || extent[1] <= extent[0]`.  `brushEmpty` is the
d3 brush's own `empty()` state (no active selection). -/
def brushIsEmpty (brushEmpty : Bool) (extent : Option (ℚ × ℚ)) : Bool :=
  brushEmpty || extent.elim true fun e => decide (e.2 ≤ e.1)

/-- `_chart._brushing` (lines 1051-1069), reduced to the filter it leaves
behind once the debounced trigger fires: `null` when the (possibly rounded)
extent is empty, otherwise the ranged filter `[extent[0], extent[1]]`. -/
def brushing (round : Option (ℚ → ℚ)) (brushEmpty : Bool)
    (brushExtent : ℚ × ℚ) : Option (ℚ × ℚ) :=
  let extent := extendBrush round brushExtent
  if brushIsEmpty brushEmpty (some extent) then none else some extent

/-! ### Filter/brush synchronization -/

/-- The state touched by the overridden `filter` setter: the base mixin's
active filter and the d3 brush's extent (`none` models a cleared brush,
`_brush.clear()`). -/
structure FilterBrushState where
  activeFilter : Option (ℚ × ℚ)
  brushExtent : Option (ℚ × ℚ)
deriving DecidableEq, Repr

/-- The `dc.override(_chart, 'filter', ...)` setter (lines 977-991): store
the filter (base mixin `_chart._filter(_)` — modelled from the spec as
plain set/replace/clear storage of the active filter), then mirror it into
the brush: truthy filter → `brush().extent(_)`, falsy → `brush().clear()`. -/
def filterSetter (st : FilterBrushState) (f : Option (ℚ × ℚ)) : FilterBrushState :=
  let st1 := { st with activeFilter := f }
  match f with
  | some e => { st1 with brushExtent := some e }
  | none => { st1 with brushExtent := none }

/-! ## Derived definitions used by the theorems -/

/-- The accumulated column offsets after the stack layout has processed the
given prefix of layers: the fold of `nextOffsets`, as performed by
`stackLayers`. -/
def offsetsAfter (os : List ℚ) : List PreparedLayer → List ℚ
  | [] => os
  | pl :: rest => offsetsAfter (nextOffsets os pl.values) rest

/-- The stacked-and-flipped output of the stack layout over prepared layers
whose value lists all have length `m` (the shape `chartData` produces). -/
def stackedOut (m : ℕ) (L : List PreparedLayer) : List OutLayer :=
  flipXY (stackLayers (List.replicate m 0) L)

/-- Claim C1's baseline sentence exactly as stated (the spec's words, for
comparison with `chartData`): in the stacked output, every point's baseline
`x0` equals the sum, over the visible layers below it in registration order,
of the value *at that point's key* (a missing key contributing `0`). -/
def specBaselineByKey (cfg : AxisCfg) (defaultAccessor keyAccessor : RawRecord → ℚ)
    (s : List Layer) : Prop :=
  ∀ out, chartData cfg defaultAccessor keyAccessor s = some out →
    ∀ (i j : ℕ) (ol : OutLayer) (p : OutPt), out[i]? = some ol → ol.values[j]? = some p →
      p.x0 = ((out.take i).map fun ol2 => valueAtKey ol2.values p.y).sum

/-- A chart configuration with no y scale yet: `domainFilter` keeps all
points, so stacking is undisturbed.  Used by the concrete stacking inputs. -/
def noScaleCfg : AxisCfg := ⟨none, false, false, false⟩

/-- The default `valueAccessor` of the concrete stacking examples. -/
def exValueAcc : RawRecord → ℚ := fun r => r.value

/-- The shared `keyAccessor` of the concrete stacking examples. -/
def exKeyAcc : RawRecord → ℚ := fun r => r.key

/-- Two visible unnamed layers over the *same keys in different orders*:
layer 0 yields `(1, 5), (2, 3)` and layer 1 yields `(2, 4), (1, 2)`. -/
def c1stack : List Layer :=
  [⟨[⟨1, 5⟩, ⟨2, 3⟩], none, none, false⟩,
   ⟨[⟨2, 4⟩, ⟨1, 2⟩], none, none, false⟩]

/-- The stacked output `chartData` produces for `c1stack`: baselines are
assigned by position, so layer 1's point with key `2` (position 0) receives
baseline `5` — layer 0's value at *position* 0, whose key is `1`. -/
def c1out : List OutLayer :=
  [⟨[⟨1, 5⟩, ⟨2, 3⟩], "0", none,
    [⟨⟨1, 5⟩, false, "0", 5, 1, 0⟩, ⟨⟨2, 3⟩, false, "0", 3, 2, 0⟩]⟩,
   ⟨[⟨2, 4⟩, ⟨1, 2⟩], "1", none,
    [⟨⟨2, 4⟩, false, "1", 4, 2, 5⟩, ⟨⟨1, 2⟩, false, "1", 2, 1, 3⟩]⟩]

/-- A single visible layer yielding `(1, 5)`, for witnessing C1. -/
def c1wStack : List Layer := [⟨[⟨1, 5⟩], none, none, false⟩]

/-- The stacked output for `c1wStack`. -/
def c1wOut : List OutLayer :=
  [⟨[⟨1, 5⟩], "0", none, [⟨⟨1, 5⟩, false, "0", 5, 1, 0⟩]⟩]

/-- Registry with layer "A" hidden and layer "B" visible, for C7: hiding and
re-showing "A" un-hides it, changing the stacked output. -/
def c7stack : List Layer :=
  [⟨[⟨1, 5⟩], some "A", none, true⟩, ⟨[⟨1, 2⟩], some "B", none, false⟩]

/-! ## Theorems -/

/-! ### C2: zoom domain constraint -/

/-- Claim C2: with `zoomOutRestrict` set, the domain a zoom-handling pass
leaves on the chart is a subset of the original domain, and — when a range
chart is linked — a subset of the intersection of the original domain and
the range chart's current domain. -/
theorem c2_zoom_restrict (c : GridChart) (rd : Option (ℚ × ℚ))
    (hz : c.zoomOutRestrict = true) :
    Set.Icc (zoomHandler c rd).yDomain.1 (zoomHandler c rd).yDomain.2 ⊆
      Set.Icc c.yOriginalDomain.1 c.yOriginalDomain.2 ∧
    ∀ r, rd = some r →
      Set.Icc (zoomHandler c rd).yDomain.1 (zoomHandler c rd).yDomain.2 ⊆
        Set.Icc c.yOriginalDomain.1 c.yOriginalDomain.2 ∩ Set.Icc r.1 r.2 := by
  cases rd with
  | none =>
      refine ⟨?_, fun r hr => by cases hr⟩
      simp only [zoomHandler, hz, if_true, constrainRange]
      exact Set.Icc_subset_Icc (le_max_right _ _) (min_le_right _ _)
  | some r =>
      have h1 : Set.Icc (zoomHandler c (some r)).yDomain.1 (zoomHandler c (some r)).yDomain.2 ⊆
          Set.Icc c.yOriginalDomain.1 c.yOriginalDomain.2 := by
        simp only [zoomHandler, hz, if_true, constrainRange]
        exact Set.Icc_subset_Icc (le_trans (le_max_right _ _) (le_max_left _ _))
          (le_trans (min_le_left _ _) (min_le_right _ _))
      have h2 : Set.Icc (zoomHandler c (some r)).yDomain.1 (zoomHandler c (some r)).yDomain.2 ⊆
          Set.Icc r.1 r.2 := by
        simp only [zoomHandler, hz, if_true, constrainRange]
        exact Set.Icc_subset_Icc (le_max_right _ _) (min_le_right _ _)
      exact ⟨h1, fun r2 hr2 => by cases hr2; exact Set.subset_inter h1 h2⟩

/-- Witness for C2 at a concrete chart: current domain `(10, 150)` zoomed
out beyond the original `(0, 100)` with a linked range chart at `(5, 120)`. -/
theorem c2_witness :
    Set.Icc (zoomHandler ⟨(10, 150), (0, 100), none, true⟩ (some (5, 120))).yDomain.1
        (zoomHandler ⟨(10, 150), (0, 100), none, true⟩ (some (5, 120))).yDomain.2 ⊆
      Set.Icc (0 : ℚ) 100 ∩ Set.Icc 5 120 :=
  (c2_zoom_restrict ⟨(10, 150), (0, 100), none, true⟩ (some (5, 120)) rfl).2 (5, 120) rfl

/-! ### C3: brush/filter coupling -/

/-- Claim C3: after a brush update, a non-empty rounded extent `[s, e]` with
`e > s` becomes the ranged filter `[s, e]`; an inverted or empty extent
(`e <= s`) clears the filter instead. -/
theorem c3_brush_filter (round : Option (ℚ → ℚ)) (brushEmpty : Bool) (ext : ℚ × ℚ) :
    (brushEmpty = false → (extendBrush round ext).1 < (extendBrush round ext).2 →
      brushing round brushEmpty ext = some (extendBrush round ext)) ∧
    ((extendBrush round ext).2 ≤ (extendBrush round ext).1 →
      brushing round brushEmpty ext = none) := by
  constructor
  · intro hbe hlt
    simp [brushing, brushIsEmpty, hbe, not_le.mpr hlt]
  · intro hle
    simp [brushing, brushIsEmpty, hle]

/-- Witness for C3: extent `[2, 8]` yields the ranged filter `[2, 8]`;
extent `[5, 5]` clears the filter. -/
theorem c3_witness :
    brushing none false (2, 8) = some (2, 8) ∧ brushing none false (5, 5) = none :=
  ⟨(c3_brush_filter none false (2, 8)).1 rfl (by simp [extendBrush]; norm_num),
   (c3_brush_filter none false (5, 5)).2 (by simp [extendBrush])⟩

/-! ### C8: unknown stack names are no-ops -/

/-- `setHiddenByName` leaves a registry unchanged when no layer carries the
requested name. -/
theorem setHiddenByName_of_not_mem (n : String) (b : Bool) :
    ∀ s : List Layer, (∀ l ∈ s, l.name ≠ some n) → setHiddenByName n b s = s
  | [], _ => rfl
  | l :: ls, h => by
      have hl : ¬l.name = some n := h l (List.mem_cons_self l ls)
      simp only [setHiddenByName, if_neg hl]
      rw [setHiddenByName_of_not_mem n b ls fun x hx => h x (List.mem_cons_of_mem l hx)]

/-- Claim C8: `hideStack`/`showStack` with a name matching no registered
layer leave the registry unchanged (total functions: no error is raised;
the chart value returned by the source is the registry state here). -/
theorem c8_unknown_name_noop (n : String) (s : List Layer)
    (h : ∀ l ∈ s, l.name ≠ some n) :
    hideStack n s = s ∧ showStack n s = s :=
  ⟨setHiddenByName_of_not_mem n true s h, setHiddenByName_of_not_mem n false s h⟩

/-- Witness for C8: toggling the unknown name "B" on a registry holding only
a layer named "A". -/
theorem c8_witness :
    hideStack "B" [⟨[], some "A", none, false⟩] = [⟨[], some "A", none, false⟩] ∧
    showStack "B" [⟨[], some "A", none, false⟩] = [⟨[], some "A", none, false⟩] :=
  c8_unknown_name_noop "B" [⟨[], some "A", none, false⟩]
    (by intro l hl; rw [List.mem_singleton.mp hl]; simp)

/-! ### C10: filter writes keep the brush in sync -/

/-- Claim C10: the overridden `filter` setter mirrors every filter write into
the brush — a set filter becomes the brush extent, a cleared filter clears
the brush — so the active filter and the brush extent agree right after any
filter write.  (The base mixin's underlying `_filter` storage is modelled
from the spec as plain set/replace/clear.) -/
theorem c10_filter_brush_sync (st : FilterBrushState) (f : Option (ℚ × ℚ)) :
    (filterSetter st f).brushExtent = f ∧ (filterSetter st f).activeFilter = f := by
  cases f <;> simp [filterSetter]

/-! ### C5: the stacking domain filter -/

/-- Counterexample to claim C5 as stated: with the category (y) axis elastic
(`elasticY = true`) but `elasticX = false` on a fixed continuous y domain
`[0, 10]`, `domainFilter` still *drops* the point with key `20` — the code
consults `elasticX()`, never the category axis's own elasticity. -/
theorem c5_counterexample :
    (⟨some [0, 10], false, false, true⟩ : AxisCfg).elasticY = true ∧
    domainFilter ⟨some [0, 10], false, false, true⟩ ⟨20, some 1, ⟨20, 1⟩, "0", false⟩ = false := by
  decide

/-- Claim C5 (amended): `domainFilter` keeps all points when no y scale is
set, when the consuming axis is ordinal, or when the chart's `elasticX` flag
(the x/value axis elasticity — the category y axis's own elasticity is never
consulted) is on; on a fixed continuous domain it keeps a point exactly when
`domainMin <= key <= domainMax`. -/
theorem c5_domain_filter (cfg : AxisCfg) (p : Pt) :
    (cfg.yDomain = none → domainFilter cfg p = true) ∧
    (cfg.isOrdinal = true → domainFilter cfg p = true) ∧
    (cfg.elasticX = true → domainFilter cfg p = true) ∧
    (∀ yDom lo hi, cfg.yDomain = some yDom → cfg.isOrdinal = false → cfg.elasticX = false →
      yDom.head? = some lo → yDom.getLast? = some hi →
      (domainFilter cfg p = true ↔ lo ≤ p.x ∧ p.x ≤ hi)) := by
  refine ⟨fun hy => by simp [domainFilter, hy], ?_, ?_, ?_⟩
  · intro ho
    rcases hy : cfg.yDomain with _ | yDom <;> simp [domainFilter, hy, ho]
  · intro he
    rcases hy : cfg.yDomain with _ | yDom <;>
      rcases ho : cfg.isOrdinal <;> simp [domainFilter, hy, ho, he]
  · intro yDom lo hi hy ho he hlo hhi
    simp [domainFilter, hy, ho, he, hlo, hhi]

/-- Witness for C5: ordinal keeps an out-of-domain key; a fixed continuous
domain `[0, 10]` keeps key `5` and the kept/dropped test is the interval
test. -/
theorem c5_witness :
    domainFilter ⟨some [0, 10], true, false, false⟩ ⟨20, some 1, ⟨20, 1⟩, "0", false⟩ = true ∧
    (domainFilter ⟨some [0, 10], false, false, false⟩ ⟨5, some 1, ⟨5, 1⟩, "0", false⟩ = true ↔
      (0 : ℚ) ≤ 5 ∧ (5 : ℚ) ≤ 10) :=
  ⟨(c5_domain_filter ⟨some [0, 10], true, false, false⟩ ⟨20, some 1, ⟨20, 1⟩, "0", false⟩).2.1 rfl,
   (c5_domain_filter ⟨some [0, 10], false, false, false⟩ ⟨5, some 1, ⟨5, 1⟩, "0", false⟩).2.2.2
     [0, 10] 0 10 rfl rfl rfl rfl rfl⟩

/-! ### C4: range → focus propagation -/

/-- Counterexample to claim C4 as stated: chart A (range) has domain
`(0, 200)` and filter `[10, 150]`; chart B (focus) has original domain
`(0, 100)` and `zoomOutRestrict` left at its default `true`.  A's filter
differs from B's, yet B's domain becomes `(10, 100)` — the `focus` call runs
`zoomHandler`, which constrains the new domain to B's original domain — not
`[10, 150]` as the claim requires. -/
theorem c4_counterexample :
    (⟨(0, 200), (0, 200), some (10, 150), true⟩ : GridChart).filter = some (10, 150) ∧
    rangesEqual (some (10, 150)) (⟨(0, 100), (0, 100), none, true⟩ : GridChart).filter = false ∧
    (focusChartOnFiltered ⟨(0, 200), (0, 200), some (10, 150), true⟩
        ⟨(0, 100), (0, 100), none, true⟩).yDomain ≠ (10, 150) := by
  decide

/-- Claim C4 (amended): when the range chart's filter is cleared, the focus
chart's domain resets to its original domain.  When the range chart's filter
becomes `[lo, hi]` differing from the focus chart's filter, the focus
chart's domain becomes `[lo, hi]` *constrained* — when its `zoomOutRestrict`
is set — to its original domain and the range chart's current domain; it is
exactly `[lo, hi]` whenever `[lo, hi]` lies inside both (and always when
`zoomOutRestrict` is off). -/
theorem c4_focus_propagation (a b : GridChart) :
    (a.filter = none → (focusChartOnFiltered a b).yDomain = b.yOriginalDomain) ∧
    (∀ lo hi, a.filter = some (lo, hi) → rangesEqual (some (lo, hi)) b.filter = false →
      (focusChartOnFiltered a b).yDomain =
        if b.zoomOutRestrict then
          constrainRange (constrainRange (lo, hi) b.yOriginalDomain) a.yDomain
        else (lo, hi)) ∧
    (∀ lo hi, a.filter = some (lo, hi) → rangesEqual (some (lo, hi)) b.filter = false →
      b.zoomOutRestrict = true →
      b.yOriginalDomain.1 ≤ lo → hi ≤ b.yOriginalDomain.2 →
      a.yDomain.1 ≤ lo → hi ≤ a.yDomain.2 →
      (focusChartOnFiltered a b).yDomain = (lo, hi)) := by
  have hmain : ∀ lo hi, a.filter = some (lo, hi) →
      rangesEqual (some (lo, hi)) b.filter = false →
      (focusChartOnFiltered a b).yDomain =
        if b.zoomOutRestrict then
          constrainRange (constrainRange (lo, hi) b.yOriginalDomain) a.yDomain
        else (lo, hi) := by
    intro lo hi hf hne
    rcases hb : b.zoomOutRestrict <;>
      simp [focusChartOnFiltered, hf, hne, focus, hasRangeSelected, zoomHandler, hb]
  refine ⟨fun hf => by simp [focusChartOnFiltered, hf], hmain, ?_⟩
  intro lo hi hf hne hz h1 h2 h3 h4
  rw [hmain lo hi hf hne, if_pos hz]
  simp only [constrainRange]
  rw [max_eq_left h1, min_eq_left h2, max_eq_left h3, min_eq_left h4]

/-- Witness for C4: A's filter `[10, 20]` inside B's original `(0, 100)` and
A's domain `(0, 200)` snaps B's domain to `(10, 20)`; clearing A's filter
resets B to its original domain. -/
theorem c4_witness :
    (focusChartOnFiltered ⟨(0, 200), (0, 200), some (10, 20), true⟩
        ⟨(0, 100), (0, 100), none, true⟩).yDomain = (10, 20) ∧
    (focusChartOnFiltered ⟨(0, 200), (0, 200), none, true⟩
        ⟨(30, 40), (0, 100), some (30, 40), true⟩).yDomain = (0, 100) :=
  ⟨(c4_focus_propagation ⟨(0, 200), (0, 200), some (10, 20), true⟩
      ⟨(0, 100), (0, 100), none, true⟩).2.2 10 20 rfl rfl rfl
      (by norm_num) (by norm_num) (by norm_num) (by norm_num),
   (c4_focus_propagation ⟨(0, 200), (0, 200), none, true⟩
      ⟨(30, 40), (0, 100), some (30, 40), true⟩).1 rfl⟩

/-! ### C6: the bar-height floor -/

/-- The clamp always produces a finite bar height of at least `1`. -/
theorem clampBarHeight_spec (h : JSNum) :
    ∃ q : ℚ, 1 ≤ q ∧ clampBarHeight h = JSNum.num q := by
  rcases h with q | _ | _ | _
  · by_cases hq : q < 1
    · exact ⟨1, le_refl 1, by simp [clampBarHeight, JSNum.lt, JSNum.isNaN, MIN_BAR_HEIGHT, hq]⟩
    · exact ⟨q, not_lt.mp hq,
        by simp [clampBarHeight, JSNum.lt, JSNum.isNaN, MIN_BAR_HEIGHT, hq]⟩
  · exact ⟨1, le_refl 1, by decide⟩
  · exact ⟨1, le_refl 1, by decide⟩
  · exact ⟨1, le_refl 1, by decide⟩

/-- A finite value below `1` is clamped to the floor. -/
theorem clampBarHeight_num_of_lt {q : ℚ} (h : q < 1) :
    clampBarHeight (JSNum.num q) = JSNum.num 1 := by
  simp [clampBarHeight, JSNum.lt, JSNum.isNaN, MIN_BAR_HEIGHT, h]

/-- Flooring a nonpositive finite value and clamping gives the floor `1`. -/
theorem clampBarHeight_floor_of_nonpos {q : ℚ} (h : q ≤ 0) :
    clampBarHeight (JSNum.floor (JSNum.num q)) = JSNum.num 1 := by
  have h1 : ((⌊q⌋ : ℤ) : ℚ) ≤ 0 := by exact_mod_cast Int.floor_nonpos h
  have h2 : ((⌊q⌋ : ℤ) : ℚ) < 1 := lt_of_le_of_lt h1 one_pos
  simpa [JSNum.floor] using clampBarHeight_num_of_lt h2

/-- Dividing anything by (positive) zero yields `±Infinity` or `NaN`, and the
floor-then-clamp pipeline turns all of those into the bar-height floor. -/
theorem clampBarHeight_floor_div_zero (x : JSNum) :
    clampBarHeight (JSNum.floor (JSNum.div x (JSNum.num 0))) = JSNum.num 1 := by
  rcases x with a | _ | _ | _
  · by_cases ha : a = 0
    · simp [JSNum.div, ha, JSNum.floor, clampBarHeight, JSNum.isNaN, MIN_BAR_HEIGHT]
    · by_cases hpos : 0 < a
      · simp [JSNum.div, ha, hpos, JSNum.floor, clampBarHeight, JSNum.isNaN, MIN_BAR_HEIGHT]
      · simp [JSNum.div, ha, hpos, JSNum.floor, clampBarHeight, JSNum.isNaN, JSNum.lt,
          MIN_BAR_HEIGHT]
  · decide
  · decide
  · decide

/-- Counterexample to claim C6 as stated: an ordinal chart whose `gap` was
unset by `barPadding(0)` (so `rangeBandPadding = 0`, outer padding at its
default `1/2`), with axis height `10` and an empty ordinal domain — hence
unit count `0`.  `calculateBarHeight` takes the `Math.floor(rangeBand())`
branch, which never divides by the unit count: the result is `10`, not the
claimed exact floor `1`. -/
theorem c6_counterexample :
    barHeightRender true none 10 0 0 0 0 (1 / 2) = JSNum.num 10 ∧
    JSNum.num 10 ≠ JSNum.num 1 := by
  constructor
  · norm_num [barHeightRender, calculateBarHeight, calculateBarHeightRaw, d3RangeBand,
      JSNum.div, JSNum.mul, JSNum.floor, clampBarHeight, JSNum.isNaN, JSNum.lt, MIN_BAR_HEIGHT]
    decide
  · simp

/-- Claim C6 (amended): the computed bar height is always a finite value of
at least `1` — non-finite or `NaN` intermediates are clamped, never
propagated.  With a nonnegative gap and a unit count that is `0` or at least
`1`: a unit count of `0` gives exactly `1` in every branch that divides by
the unit count (i.e. unless the chart is ordinal with `gap` unset, where the
result is the clamped floored range band instead), and an axis height of `0`
gives exactly `1` in every branch. -/
theorem c6_bar_height (isOrd : Bool) (gap : Option ℚ) (H pad n : ℚ) (m : ℕ)
    (rbp outerP : ℚ)
    (hg : ∀ g, gap = some g → 0 ≤ g) (hn : n = 0 ∨ 1 ≤ n) :
    (∃ q : ℚ, 1 ≤ q ∧ barHeightRender isOrd gap H pad n m rbp outerP = JSNum.num q) ∧
    (¬(isOrd = true ∧ gap = none) → n = 0 →
      barHeightRender isOrd gap H pad n m rbp outerP = JSNum.num 1) ∧
    (H = 0 → barHeightRender isOrd gap H pad n m rbp outerP = JSNum.num 1) := by
  refine ⟨clampBarHeight_spec _, ?_, ?_⟩
  · intro hbranch hn0
    subst hn0
    simp only [barHeightRender, calculateBarHeight, calculateBarHeightRaw, if_neg hbranch]
    rcases gap with _ | g
    · exact clampBarHeight_floor_div_zero _
    · by_cases hgz : g = 0
      · simp only [if_pos hgz]
        exact clampBarHeight_floor_div_zero _
      · simp only [if_neg hgz]
        exact clampBarHeight_floor_div_zero _
  · intro hH0
    subst hH0
    by_cases hband : isOrd = true ∧ gap = none
    · simp only [barHeightRender, calculateBarHeight, calculateBarHeightRaw, if_pos hband,
        d3RangeBand]
      by_cases hD : ((m : ℚ) - rbp + 2 * outerP) = 0
      · simp [JSNum.div, hD, JSNum.mul, JSNum.floor, clampBarHeight, JSNum.isNaN, MIN_BAR_HEIGHT]
      · have hdiv : JSNum.div (JSNum.num 0) (JSNum.num ((m : ℚ) - rbp + 2 * outerP)) =
            JSNum.num 0 := by simp [JSNum.div, hD]
        rw [hdiv]
        have hmul : JSNum.mul (JSNum.num 0) (JSNum.num (1 - rbp)) = JSNum.num 0 := by
          simp [JSNum.mul]
        rw [hmul]
        exact clampBarHeight_floor_of_nonpos (le_refl 0)
    · simp only [barHeightRender, calculateBarHeight, calculateBarHeightRaw, if_neg hband]
      have hpadBranch : clampBarHeight (JSNum.floor
          (JSNum.div (JSNum.div (JSNum.num 0) (JSNum.num (1 + pad))) (JSNum.num n))) =
          JSNum.num 1 := by
        by_cases hp : (1 : ℚ) + pad = 0
        · simp [JSNum.div, hp, JSNum.floor, clampBarHeight, JSNum.isNaN, MIN_BAR_HEIGHT]
        · have hdiv : JSNum.div (JSNum.num 0) (JSNum.num (1 + pad)) = JSNum.num 0 := by
            simp [JSNum.div, hp]
          rw [hdiv]
          by_cases hn0 : n = 0
          · subst hn0
            exact clampBarHeight_floor_div_zero _
          · have hdiv2 : JSNum.div (JSNum.num 0) (JSNum.num n) = JSNum.num 0 := by
              simp [JSNum.div, hn0]
            rw [hdiv2]
            exact clampBarHeight_floor_of_nonpos (le_refl 0)
      rcases gap with _ | g
      · exact hpadBranch
      · by_cases hgz : g = 0
        · simp only [if_pos hgz]
          exact hpadBranch
        · simp only [if_neg hgz]
          have hgpos : 0 < g := lt_of_le_of_ne (hg g rfl) (Ne.symm hgz)
          rcases hn with hn0 | hn1
          · subst hn0
            exact clampBarHeight_floor_div_zero _
          · have hnpos : (0 : ℚ) < n := lt_of_lt_of_le one_pos hn1
            have hnum : (0 : ℚ) - (n - 1) * g ≤ 0 := by nlinarith
            have hdiv : JSNum.div (JSNum.num (0 - (n - 1) * g)) (JSNum.num n) =
                JSNum.num ((0 - (n - 1) * g) / n) := by
              simp [JSNum.div, ne_of_gt hnpos]
            rw [hdiv]
            exact clampBarHeight_floor_of_nonpos (div_nonpos_iff.mpr (Or.inr ⟨hnum, hnpos.le⟩))

/-- Witness for C6: non-ordinal chart with gap `2`, height `10` and unit
count `0` — the bar height is exactly the floor `1`, finite and at least
`1`. -/
theorem c6_witness :
    (∃ q : ℚ, 1 ≤ q ∧ barHeightRender false (some 2) 10 0 0 5 0 0 = JSNum.num q) ∧
    (¬(false = true ∧ (some (2 : ℚ) : Option ℚ) = none) → (0 : ℚ) = 0 →
      barHeightRender false (some 2) 10 0 0 5 0 0 = JSNum.num 1) ∧
    ((10 : ℚ) = 0 → barHeightRender false (some 2) 10 0 0 5 0 0 = JSNum.num 1) :=
  c6_bar_height false (some 2) 10 0 0 5 0 0
    (fun g hgeq => by cases hgeq; norm_num) (Or.inl rfl)

/-! ### C7: hide/show round trip -/

/-- Setting the hidden flag to `true` and then to `false` restores the
registry exactly when the first layer named `n` (if any) was not hidden. -/
theorem setHiddenByName_roundtrip : ∀ (s : List Layer) (n : String),
    (∀ l, findLayerByName n s = some l → l.hidden = false) →
    setHiddenByName n false (setHiddenByName n true s) = s
  | [], _, _ => rfl
  | l :: ls, n, h => by
      by_cases hl : l.name = some n
      · have hh : l.hidden = false := h l (by simp [findLayerByName, hl])
        simp only [setHiddenByName, if_pos hl]
        rcases l with ⟨g, nm, acc, hid⟩
        simp only [setHiddenByName]
        simp only [show hid = false from by simpa using hh]
      · simp only [setHiddenByName, if_neg hl]
        rw [setHiddenByName_roundtrip ls n fun x hx =>
          h x (by simp only [findLayerByName, if_neg hl]; exact hx)]

/-- Counterexample to claim C7 as stated: with layer "A" *already hidden*,
`hideStack("A")` is a no-op but `showStack("A")` un-hides it, so the
hide-then-show round trip changes the stacked output (one layer before,
two after). -/
theorem c7_counterexample :
    chartData noScaleCfg exValueAcc exKeyAcc (showStack "A" (hideStack "A" c7stack)) ≠
      chartData noScaleCfg exValueAcc exKeyAcc c7stack := by
  have ha : (chartData noScaleCfg exValueAcc exKeyAcc
      (showStack "A" (hideStack "A" c7stack))).map (fun out => out.length) = some 2 := by
    norm_num [chartData, prepareLayers, prepareValues, noScaleCfg, exValueAcc, exKeyAcc,
      c7stack, domainFilter, assignName, stackLayers, flipXY, flipLayer, flipPt, nextOffsets,
      hideStack, showStack, setHiddenByName, List.filter, List.all]
  have hb : (chartData noScaleCfg exValueAcc exKeyAcc c7stack).map
      (fun out => out.length) = some 1 := by
    norm_num [chartData, prepareLayers, prepareValues, noScaleCfg, exValueAcc, exKeyAcc,
      c7stack, domainFilter, assignName, stackLayers, flipXY, flipLayer, flipPt, nextOffsets,
      List.filter, List.all]
  intro h
  rw [h, hb] at ha
  exact absurd ha (by decide)

/-- Claim C7 (amended): hiding then showing a stack name with no other
mutation in between restores the registry — and hence the exact stacked
output — provided the first layer carrying that name was not already hidden
(an unknown name makes both calls no-ops).  For an already-hidden layer the
round trip ends with the layer visible instead. -/
theorem c7_hide_show_roundtrip (cfg : AxisCfg) (da ka : RawRecord → ℚ)
    (s : List Layer) (n : String)
    (hvis : ∀ l, findLayerByName n s = some l → l.hidden = false) :
    showStack n (hideStack n s) = s ∧
    chartData cfg da ka (showStack n (hideStack n s)) = chartData cfg da ka s := by
  have h : showStack n (hideStack n s) = s := setHiddenByName_roundtrip s n hvis
  exact ⟨h, by rw [h]⟩

/-- Witness for C7: round-tripping the visible layer "B" of `c7stack`
restores the registry and the stacked output. -/
theorem c7_witness :
    showStack "B" (hideStack "B" c7stack) = c7stack ∧
    chartData noScaleCfg exValueAcc exKeyAcc (showStack "B" (hideStack "B" c7stack)) =
      chartData noScaleCfg exValueAcc exKeyAcc c7stack :=
  c7_hide_show_roundtrip noScaleCfg exValueAcc exKeyAcc c7stack "B"
    (by
      intro l hl
      simp only [c7stack, findLayerByName, if_neg (by decide : ¬(some "A" = some "B")),
        if_pos rfl] at hl
      rw [← Option.some_inj.mp hl])

/-! ### C9: default layer names -/

/-- Taking one more layer past a hidden head does not change the visible
count. -/
theorem visibleCountBefore_cons_hidden (hd : Layer) (tl : List Layer) (i : ℕ)
    (hh : hd.hidden = true) :
    visibleCountBefore (hd :: tl) (i + 1) = visibleCountBefore tl i := by
  simp [visibleCountBefore, List.take_succ_cons, List.filter_cons, hh]

/-- Taking one more layer past a visible head adds one to the visible
count. -/
theorem visibleCountBefore_cons_visible (hd : Layer) (tl : List Layer) (i : ℕ)
    (hh : hd.hidden = false) :
    visibleCountBefore (hd :: tl) (i + 1) = visibleCountBefore tl i + 1 := by
  simp [visibleCountBefore, List.take_succ_cons, List.filter_cons, hh]

/-- The name `registryAfterDataAux` assigns to the visible layer at
position `i`: the running visible index `v` plus the visible count before
`i`. -/
theorem registryAfterDataAux_getElem? : ∀ (s : List Layer) (v i : ℕ) (l : Layer),
    s[i]? = some l → l.hidden = false →
    (registryAfterDataAux v s)[i]? =
      some { l with name := some (assignName l.name (v + visibleCountBefore s i)) }
  | [], _, i, l, hl, _ => by simp at hl
  | hd :: tl, v, 0, l, hl, hvis => by
      rw [List.getElem?_cons_zero] at hl
      injection hl with hl2
      subst hl2
      rw [registryAfterDataAux, if_neg (by simp [hvis])]
      simp [visibleCountBefore]
  | hd :: tl, v, i + 1, l, hl, hvis => by
      rw [List.getElem?_cons_succ] at hl
      by_cases hh : hd.hidden
      · rw [registryAfterDataAux, if_pos hh, List.getElem?_cons_succ,
          registryAfterDataAux_getElem? tl v i l hl hvis,
          visibleCountBefore_cons_hidden hd tl i hh]
      · rw [registryAfterDataAux, if_neg hh, List.getElem?_cons_succ,
          registryAfterDataAux_getElem? tl (v + 1) i l hl hvis,
          visibleCountBefore_cons_visible hd tl i (by simpa using hh)]
        have harith : v + 1 + visibleCountBefore tl i = v + (visibleCountBefore tl i + 1) := by
          omega
        rw [harith]

/-- Claim C9 (amended): during a data pass, a visible layer at registry
position `i` has its name set to `assignName` of its *visible index* —
the number of visible layers registered before it — which equals the
registration index only when every earlier layer is visible.  A layer
without an explicit name therefore defaults to the stringified visible
index, and this name is what `hideStack`/`showStack`/legend queries match. -/
theorem c9_default_name (s : List Layer) (i : ℕ) (l : Layer)
    (hl : s[i]? = some l) (hvis : l.hidden = false) :
    (registryAfterData s)[i]? =
      some { l with name := some (assignName l.name (visibleCountBefore s i)) } := by
  have hmem : l ∈ s := by
    rcases List.getElem?_eq_some.mp hl with ⟨hi, rfl⟩
    exact List.getElem_mem hi
  have hne : (s.filter fun x => !x.hidden).isEmpty = false := by
    rw [List.isEmpty_eq_false]
    intro hempty
    have hmem2 : l ∈ s.filter fun x => !x.hidden :=
      List.mem_filter.mpr ⟨hmem, by simp [hvis]⟩
    rw [hempty] at hmem2
    simp at hmem2
  rw [registryAfterData, if_neg (by simp [hne])]
  simpa using registryAfterDataAux_getElem? s 0 i l hl hvis

/-- Counterexample to claim C9 as stated: register layer "A", then an
unnamed layer (registration index 1), hide "A" and run a data pass — the
unnamed layer is named "0" (its index among *visible* layers), not the
claimed stringified registration index "1". -/
theorem c9_counterexample :
    (registryAfterData
        [⟨[⟨1, 5⟩], some "A", none, true⟩, ⟨[⟨1, 2⟩], none, none, false⟩]).map
      (fun l => l.name) = [some "A", some "0"] ∧
    (some "0" : Option String) ≠ some "1" := by
  constructor
  · rfl
  · decide

/-- Witness for C9: with two visible unnamed layers, the layer at
registration index 1 is named from its visible index. -/
theorem c9_witness :
    (registryAfterData [⟨[], none, none, false⟩, ⟨[], none, none, false⟩])[1]? =
      some { (⟨[], none, none, false⟩ : Layer) with
        name := some (assignName none
          (visibleCountBefore [⟨[], none, none, false⟩, ⟨[], none, none, false⟩] 1)) } :=
  c9_default_name [⟨[], none, none, false⟩, ⟨[], none, none, false⟩] 1
    ⟨[], none, none, false⟩ rfl rfl

/-! ### C1: stacking baselines -/

/-- `prepareLayers` preserves the number of layers. -/
theorem prepareLayers_length (cfg : AxisCfg) (da ka : RawRecord → ℚ) :
    ∀ (i : ℕ) (ls : List Layer), (prepareLayers cfg da ka i ls).length = ls.length
  | _, [] => rfl
  | i, l :: ls => by
      simp [prepareLayers, prepareLayers_length cfg da ka (i + 1) ls]

/-- `prepareLayers` preserves the layers' groups, in order. -/
theorem prepareLayers_map_group (cfg : AxisCfg) (da ka : RawRecord → ℚ) :
    ∀ (i : ℕ) (ls : List Layer),
      (prepareLayers cfg da ka i ls).map (fun pl => pl.group) = ls.map Layer.group
  | _, [] => rfl
  | i, l :: ls => by
      simp [prepareLayers, prepareValues, prepareLayers_map_group cfg da ka (i + 1) ls]

/-- `stackLayers` produces one output layer per input layer. -/
theorem stackLayers_length : ∀ (os : List ℚ) (pls : List PreparedLayer),
    (stackLayers os pls).length = pls.length
  | _, [] => rfl
  | os, pl :: rest => by
      simp [stackLayers, stackLayers_length (nextOffsets os pl.values) rest]

/-- `stackLayers` preserves the layers' groups, in order. -/
theorem stackLayers_map_group : ∀ (os : List ℚ) (pls : List PreparedLayer),
    (stackLayers os pls).map (fun pr => pr.1.group) = pls.map (fun pl => pl.group)
  | _, [] => rfl
  | os, pl :: rest => by
      simp [stackLayers, stackLayers_map_group (nextOffsets os pl.values) rest]

/-- The `i`-th stacked layer pairs the `i`-th prepared layer's points with
the offsets accumulated over the layers before it. -/
theorem stackLayers_getElem? : ∀ (pls : List PreparedLayer) (os : List ℚ) (i : ℕ),
    (stackLayers os pls)[i]? =
      (pls[i]?).map fun pl =>
        (pl, List.zipWith (fun p o => (p, o)) pl.values (offsetsAfter os (pls.take i)))
  | [], os, i => by simp [stackLayers]
  | pl :: rest, os, 0 => by simp [stackLayers, offsetsAfter]
  | pl :: rest, os, i + 1 => by
      simp only [stackLayers, List.getElem?_cons_succ, List.take_succ_cons]
      exact stackLayers_getElem? rest (nextOffsets os pl.values) i

/-- Offsets keep their length while accumulating over equal-length layers. -/
theorem offsetsAfter_length : ∀ (pls : List PreparedLayer) (os : List ℚ) (m : ℕ),
    os.length = m → (∀ pl ∈ pls, pl.values.length = m) →
    (offsetsAfter os pls).length = m
  | [], _, _, hos, _ => hos
  | pl :: rest, os, m, hos, hall =>
      offsetsAfter_length rest (nextOffsets os pl.values) m
        (by rw [nextOffsets, List.length_zipWith, hos,
              hall pl (List.mem_cons_self pl rest)]; exact min_self m)
        fun x hx => hall x (List.mem_cons_of_mem pl hx)

/-- Column `j` of the accumulated offsets: the starting offset plus the sum
of the layers' values at position `j` (d3's `o += points[i-1][j][1]`). -/
theorem offsetsAfter_getElem? : ∀ (pls : List PreparedLayer) (os : List ℚ) (j : ℕ)
    (hj : j < os.length), (∀ pl ∈ pls, j < pl.values.length) →
    (offsetsAfter os pls)[j]? =
      some (os[j] + ((pls.map fun pl => pl.values[j]?.elim 0 fun q => q.y.getD 0).sum))
  | [], os, j, hj, _ => by
      simp [offsetsAfter, List.getElem?_eq_getElem hj]
  | pl :: rest, os, j, hj, hall => by
      have hv : j < pl.values.length := hall pl (List.mem_cons_self pl rest)
      have hlen : j < (nextOffsets os pl.values).length := by
        rw [nextOffsets, List.length_zipWith]
        exact lt_min hj hv
      have ih := offsetsAfter_getElem? rest (nextOffsets os pl.values) j hlen
        fun x hx => hall x (List.mem_cons_of_mem pl hx)
      rw [show offsetsAfter os (pl :: rest) =
            offsetsAfter (nextOffsets os pl.values) rest from rfl, ih]
      have hnext : (nextOffsets os pl.values)[j] = os[j] + (pl.values[j]).y.getD 0 :=
        List.getElem_zipWith
      rw [hnext, List.map_cons, List.sum_cons, List.getElem?_eq_getElem hv]
      simp only [Option.elim_some]
      rw [add_assoc]

/-- With pairwise-distinct keys, `find?` on a point's own key returns that
point. -/
theorem find?_key_getElem : ∀ (vals : List OutPt) (j : ℕ) (hj : j < vals.length),
    (vals.map OutPt.y).Nodup →
    vals.find? (fun q => decide (q.y = vals[j].y)) = some vals[j]
  | [], j, hj, _ => absurd hj (by simp)
  | v :: vs, 0, _, _ => by simp [List.find?]
  | v :: vs, j + 1, hj, hnd => by
      have hnd2 := hnd
      rw [List.map_cons, List.nodup_cons] at hnd2
      obtain ⟨hni, hndtl⟩ := hnd2
      have hj2 : j < vs.length := by simpa using hj
      have hvne : ¬(v.y = vs[j].y) := fun he =>
        hni (he ▸ List.mem_map.mpr ⟨vs[j], List.getElem_mem hj2, rfl⟩)
      simp only [List.getElem_cons_succ]
      rw [List.find?_cons, decide_eq_false hvne]
      exact find?_key_getElem vs j hj2 hndtl

/-- Characterization of a successful `chartData` computation: the output is
the stacked-and-flipped prepared visible layers, whose value lists all share
one length. -/
theorem chartData_some (cfg : AxisCfg) (da ka : RawRecord → ℚ) (s : List Layer)
    (out : List OutLayer) (hdata : chartData cfg da ka s = some out) :
    ∃ m : ℕ,
      (∀ pl ∈ prepareLayers cfg da ka 0 (s.filter fun l => !l.hidden),
        pl.values.length = m) ∧
      out = stackedOut m (prepareLayers cfg da ka 0 (s.filter fun l => !l.hidden)) := by
  simp only [chartData] at hdata
  rcases hp : prepareLayers cfg da ka 0 (s.filter fun l => !l.hidden) with _ | ⟨p0, ps⟩
  · rw [hp] at hdata
    simp only [Option.some_inj] at hdata
    exact ⟨0, by simp, by simp [← hdata, stackedOut, flipXY, stackLayers]⟩
  · rw [hp] at hdata
    have hdata2 : (if ((p0 :: ps).all fun pl => decide (pl.values.length = p0.values.length))
          = true then
        some (flipXY (stackLayers (List.replicate p0.values.length 0) (p0 :: ps)))
      else none) = some out := hdata
    by_cases hall :
        ((p0 :: ps).all fun pl => decide (pl.values.length = p0.values.length)) = true
    · rw [if_pos hall, Option.some_inj] at hdata2
      refine ⟨p0.values.length, ?_, by rw [← hdata2, stackedOut]⟩
      intro pl hpl
      have hlen := List.all_eq_true.mp hall pl hpl
      simpa using hlen
    · rw [if_neg hall] at hdata2
      exact absurd hdata2 (by simp)

/-- Resolving one output layer of `stackedOut`: the flipped pairing of the
prepared layer's points with the accumulated offsets. -/
theorem stackedOut_getElem? (m : ℕ) (L : List PreparedLayer) (i : ℕ) :
    (stackedOut m L)[i]? =
      (L[i]?).map fun pl =>
        flipLayer (pl, List.zipWith (fun p o => (p, o)) pl.values
          (offsetsAfter (List.replicate m 0) (L.take i))) := by
  rw [stackedOut, flipXY, List.getElem?_map, stackLayers_getElem?, Option.map_map]
  rfl

/-- Unfolding `valueAtKey` on a resolved `find?`. -/
theorem valueAtKey_eq_of_find? (vals : List OutPt) (k : ℚ) (v : OutPt)
    (h : vals.find? (fun q => decide (q.y = k)) = some v) : valueAtKey vals k = v.x := by
  unfold valueAtKey
  rw [h]

/-- Counterexample to claim C1 as stated: two visible layers over the same
keys listed in different orders.  d3's stack layout is positional: layer 1's
point with key `2` sits at position 0 and receives baseline `5` — layer 0's
value at *position* 0 (key `1`) — while the sum of the layers below it at
key `2` is `3`. -/
theorem c1_counterexample : ¬ specBaselineByKey noScaleCfg exValueAcc exKeyAcc c1stack := by
  intro h
  have hdata : chartData noScaleCfg exValueAcc exKeyAcc c1stack = some c1out := by
    norm_num [chartData, prepareLayers, prepareValues, noScaleCfg, exValueAcc, exKeyAcc,
      c1stack, c1out, domainFilter, assignName, stackLayers, flipXY, flipLayer, flipPt,
      nextOffsets, List.filter, List.all, List.zipWith, List.replicate,
      (show toString (0 : ℕ) = "0" from rfl), (show toString (1 : ℕ) = "1" from rfl)]
  have h1 := h c1out hdata 1 0
    ⟨[⟨2, 4⟩, ⟨1, 2⟩], "1", none,
      [⟨⟨2, 4⟩, false, "1", 4, 2, 5⟩, ⟨⟨1, 2⟩, false, "1", 2, 1, 3⟩]⟩
    ⟨⟨2, 4⟩, false, "1", 4, 2, 5⟩ (by rw [c1out]; rfl) rfl
  norm_num [c1out, valueAtKey, List.find?] at h1

/-- Claim C1 (amended): `chartData` excludes hidden layers from the stacked
output entirely (the output lists exactly the visible layers' groups, in
registration order), the first visible layer's baseline is `0` at every
point, and baselines are assigned *positionally*: whenever all output layers
carry the same keys in the same order (as stacks fed by groups over one
dimension do) with no duplicate keys, every point's baseline `x0` equals the
sum of the values of the visible layers below it at that point's key. -/
theorem c1_stack_baselines (cfg : AxisCfg) (da ka : RawRecord → ℚ) (s : List Layer)
    (out : List OutLayer) (hdata : chartData cfg da ka s = some out)
    (halign : ∀ la ∈ out, ∀ lb ∈ out, la.values.map OutPt.y = lb.values.map OutPt.y)
    (hnodup : ∀ la ∈ out, (la.values.map OutPt.y).Nodup) :
    (∀ (i j : ℕ) (ol : OutLayer) (p : OutPt), out[i]? = some ol → ol.values[j]? = some p →
      p.x0 = ((out.take i).map fun ol2 => valueAtKey ol2.values p.y).sum) ∧
    (∀ (ol : OutLayer) (p : OutPt), out[0]? = some ol → p ∈ ol.values → p.x0 = 0) ∧
    out.map OutLayer.group = (s.filter fun l => !l.hidden).map Layer.group := by
  obtain ⟨m, hall, hout⟩ := chartData_some cfg da ka s out hdata
  have houtlen :
      out.length = (prepareLayers cfg da ka 0 (s.filter fun l => !l.hidden)).length := by
    rw [hout, stackedOut, flipXY, List.length_map, stackLayers_length]
  have hres : ∀ l : ℕ, l < (prepareLayers cfg da ka 0 (s.filter fun x => !x.hidden)).length →
      ∃ pl : PreparedLayer,
        (prepareLayers cfg da ka 0 (s.filter fun x => !x.hidden))[l]? = some pl ∧
        out[l]? = some (flipLayer (pl, List.zipWith (fun p o => (p, o)) pl.values
          (offsetsAfter (List.replicate m 0)
            ((prepareLayers cfg da ka 0 (s.filter fun x => !x.hidden)).take l)))) := by
    intro l hl
    refine ⟨_, List.getElem?_eq_getElem hl, ?_⟩
    rw [hout, stackedOut_getElem?, List.getElem?_eq_getElem hl, Option.map_some']
  have hmain : ∀ (i j : ℕ) (ol : OutLayer) (p : OutPt), out[i]? = some ol →
      ol.values[j]? = some p →
      p.x0 = ((out.take i).map fun ol2 => valueAtKey ol2.values p.y).sum := by
    intro i j ol p hol hpj
    set L := prepareLayers cfg da ka 0 (s.filter fun x => !x.hidden) with hLdef
    have holmem : ol ∈ out := by
      rcases List.getElem?_eq_some.mp hol with ⟨h1, h2⟩
      exact h2 ▸ List.getElem_mem h1
    have hi : i < out.length := (List.getElem?_eq_some.mp hol).1
    have hiL : i < L.length := by rw [← houtlen]; exact hi
    obtain ⟨pl, hLi, holval⟩ := hres i hiL
    have holEq : ol = flipLayer (pl, List.zipWith (fun p o => (p, o)) pl.values
        (offsetsAfter (List.replicate m 0) (L.take i))) := by
      rw [hol] at holval
      exact Option.some_inj.mp holval
    have hplmem : pl ∈ L := by
      rcases List.getElem?_eq_some.mp hLi with ⟨h1, h2⟩
      exact h2 ▸ List.getElem_mem h1
    have hplv : pl.values.length = m := hall pl hplmem
    have hoffsLen : (offsetsAfter (List.replicate m 0) (L.take i)).length = m :=
      offsetsAfter_length (L.take i) _ m (List.length_replicate m 0)
        fun x hx => hall x (List.take_subset i L hx)
    have hjol : j < ol.values.length := (List.getElem?_eq_some.mp hpj).1
    have hjm : j < m := by
      have hlen : ol.values.length = m := by
        rw [holEq]
        simp [flipLayer, List.length_zipWith, hplv, hoffsLen]
      rw [hlen] at hjol
      exact hjol
    have hjv : j < pl.values.length := by rw [hplv]; exact hjm
    have hjo : j < (offsetsAfter (List.replicate m 0) (L.take i)).length := by
      rw [hoffsLen]; exact hjm
    have hpEq : p = flipPt (pl.values[j])
        ((offsetsAfter (List.replicate m 0) (L.take i))[j]) := by
      have hv : (List.map (fun q => flipPt q.1 q.2) (List.zipWith (fun p o => (p, o)) pl.values
          (offsetsAfter (List.replicate m 0) (L.take i))))[j]? = some p := by
        rw [holEq] at hpj
        exact hpj
      rw [List.getElem?_map, List.getElem?_zipWith', List.getElem?_eq_getElem hjv,
        List.getElem?_eq_getElem hjo] at hv
      simpa using hv.symm
    have hoffval : (offsetsAfter (List.replicate m 0) (L.take i))[j] =
        0 + ((L.take i).map fun pl2 => pl2.values[j]?.elim 0 fun q => q.y.getD 0).sum := by
      have hjrep : j < (List.replicate m (0 : ℚ)).length := by
        rw [List.length_replicate]; exact hjm
      have h2 := offsetsAfter_getElem? (L.take i) (List.replicate m 0) j hjrep
        fun x hx => by rw [hall x (List.take_subset i L hx)]; exact hjm
      rw [List.getElem?_eq_getElem hjo] at h2
      have h3 := Option.some_inj.mp h2
      rw [h3, List.getElem_replicate]
    have hx0 : p.x0 = 0 + ((L.take i).map fun pl2 =>
        pl2.values[j]?.elim 0 fun q => q.y.getD 0).sum := by
      rw [hpEq]
      exact hoffval
    rw [hx0, zero_add]
    congr 1
    refine (List.ext_getElem ?_ ?_).symm
    · rw [List.length_map, List.length_map, List.length_take, List.length_take, houtlen]
    · intro l hlT hlS
      have hlb : l < i ∧ l < L.length := by
        rw [List.length_map, List.length_take, lt_min_iff, houtlen] at hlT
        exact hlT
      have hlout : l < out.length := by rw [houtlen]; exact hlb.2
      obtain ⟨pl2, hLl, holval2⟩ := hres l hlb.2
      have hLl_eq : L[l] = pl2 :=
        Option.some_inj.mp ((List.getElem?_eq_getElem hlb.2).symm.trans hLl)
      have hout_l : out[l] = flipLayer (pl2, List.zipWith (fun p o => (p, o)) pl2.values
          (offsetsAfter (List.replicate m 0) (L.take l))) :=
        Option.some_inj.mp ((List.getElem?_eq_getElem hlout).symm.trans holval2)
      have hol2mem : out[l] ∈ out := List.getElem_mem hlout
      have hpl2mem : pl2 ∈ L := by
        rcases List.getElem?_eq_some.mp hLl with ⟨h1, h2⟩
        exact h2 ▸ List.getElem_mem h1
      have hpl2v : pl2.values.length = m := hall pl2 hpl2mem
      have hoffs2Len : (offsetsAfter (List.replicate m 0) (L.take l)).length = m :=
        offsetsAfter_length (L.take l) _ m (List.length_replicate m 0)
          fun x hx => hall x (List.take_subset l L hx)
      have hjv2 : j < pl2.values.length := by rw [hpl2v]; exact hjm
      have hjo2 : j < (offsetsAfter (List.replicate m 0) (L.take l)).length := by
        rw [hoffs2Len]; exact hjm
      have hol2len : (out[l]).values.length = m := by
        rw [hout_l]
        simp [flipLayer, List.length_zipWith, hpl2v, hoffs2Len]
      have hjol2 : j < (out[l]).values.length := by rw [hol2len]; exact hjm
      have hvj2 : (out[l]).values[j]? = some (flipPt (pl2.values[j])
          ((offsetsAfter (List.replicate m 0) (L.take l))[j])) := by
        rw [hout_l]
        show (List.map (fun q => flipPt q.1 q.2) (List.zipWith (fun p o => (p, o)) pl2.values
          (offsetsAfter (List.replicate m 0) (L.take l))))[j]? = _
        rw [List.getElem?_map, List.getElem?_zipWith', List.getElem?_eq_getElem hjv2,
          List.getElem?_eq_getElem hjo2]
        rfl
      have hol2j : (out[l]).values[j] = flipPt (pl2.values[j])
          ((offsetsAfter (List.replicate m 0) (L.take l))[j]) :=
        Option.some_inj.mp ((List.getElem?_eq_getElem hjol2).symm.trans hvj2)
      have hkey : ((out[l]).values[j]).y = p.y := by
        have halg := halign (out[l]) hol2mem ol holmem
        have hmj : ((out[l]).values.map OutPt.y)[j]? = (ol.values.map OutPt.y)[j]? := by
          rw [halg]
        rw [List.getElem?_map, List.getElem?_map, List.getElem?_eq_getElem hjol2, hpj] at hmj
        simpa using hmj
      have hfind : (out[l]).values.find? (fun q => decide (q.y = p.y)) =
          some ((out[l]).values[j]) := by
        rw [← hkey]
        exact find?_key_getElem (out[l]).values j hjol2 (hnodup (out[l]) hol2mem)
      have hval : valueAtKey (out[l]).values p.y = ((out[l]).values[j]).x :=
        valueAtKey_eq_of_find? (out[l]).values p.y ((out[l]).values[j]) hfind
      rw [List.getElem_map, List.getElem_map, List.getElem_take, List.getElem_take,
        hLl_eq]
      show valueAtKey (out[l]).values p.y = pl2.values[j]?.elim 0 fun q => q.y.getD 0
      rw [hval, hol2j, List.getElem?_eq_getElem hjv2]
      simp [flipPt, Option.elim_some]
  refine ⟨hmain, ?_, ?_⟩
  · intro ol p hol hmem
    obtain ⟨j, hj, hp⟩ := List.getElem_of_mem hmem
    have hpj : ol.values[j]? = some p := by rw [List.getElem?_eq_getElem hj, hp]
    have h1 := hmain 0 j ol p hol hpj
    simpa using h1
  · rw [hout, stackedOut, flipXY, List.map_map]
    have hcomp : (OutLayer.group ∘ flipLayer) = fun pr : PreparedLayer × List (Pt × ℚ) =>
        pr.1.group := rfl
    rw [hcomp, stackLayers_map_group, prepareLayers_map_group]

/-- Witness for C1: a single visible layer with one record `(1, 5)` — its
only point has baseline `0`, the by-key sum over the empty set of layers
below it, and the output lists exactly the visible layer's group. -/
theorem c1_witness :
    (∀ (i j : ℕ) (ol : OutLayer) (p : OutPt), c1wOut[i]? = some ol → ol.values[j]? = some p →
      p.x0 = ((c1wOut.take i).map fun ol2 => valueAtKey ol2.values p.y).sum) ∧
    (∀ (ol : OutLayer) (p : OutPt), c1wOut[0]? = some ol → p ∈ ol.values → p.x0 = 0) ∧
    c1wOut.map OutLayer.group = (c1wStack.filter fun l => !l.hidden).map Layer.group :=
  c1_stack_baselines noScaleCfg exValueAcc exKeyAcc c1wStack c1wOut
    (by
      norm_num [chartData, prepareLayers, prepareValues, noScaleCfg, exValueAcc, exKeyAcc,
        c1wStack, c1wOut, domainFilter, assignName, stackLayers, flipXY, flipLayer, flipPt,
        nextOffsets, List.filter, List.all, List.zipWith, List.replicate,
        (show toString (0 : ℕ) = "0" from rfl)])
    (by
      intro la hla lb hlb
      rw [c1wOut] at hla hlb
      rw [List.mem_singleton.mp hla, List.mem_singleton.mp hlb])
    (by
      intro la hla
      rw [c1wOut] at hla
      rw [List.mem_singleton.mp hla]
      decide)
